import Mathlib

/-!
Verification of the filter layer of `web3/utils/filters.py`: the event
filter-parameter builder (`construct_event_filter_params`), the data
filter matcher (`construct_data_filter_regex` / `LogFilter.is_valid_entry`),
and the polling filter state machine (`Filter`, `LogFilter`,
`PastLogFilter`, `ShhFilter`).

The Python code is shallowly embedded: payloads and hex values are lists
of characters, entries of the remote stream are opaque naturals, the
engine state is a record of the `running` / `stopped` flags together with
the callback registry and poll interval, and every side effect of a run
(fetches, validity checks, formatter calls, callback invocations, sleeps)
is recorded in an explicit event trace.
-/

namespace Web3Filters

/-! ## Data filters (`construct_data_filter_regex` and friends)

The source compiles a data filter set into the single regular expression

  `'^' + '|'.join('0x' + ''.join(slot...) for tuple in set) + '$'`

and tests entries with `regex.match(data)`.  Because alternation binds
looser than the anchors, the pattern reads `(^alt1)|alt2|...|(altn$)`:
under `re.match` (which anchors at the start) every non-final alternative
only has to match a *prefix* of the payload, and only the final
alternative is anchored at the end.  `dataFilterRegexMatch` embeds exactly
that semantics; `$` is modelled as end-of-input (the payloads at issue are
hex strings without trailing newlines). -/

/-- A slot of a data filter tuple: `none` is the wildcard (the source
inserts the character class `[a-f0-9]{64}`), `some v` is an exact value
from which the source strips the first two characters (the `0x` prefix). -/
abbrev Slot := Option (List Char)

/-- A data filter tuple: an ordered list of slots. -/
abbrev DataTuple := List Slot

/-- One character of the source's `ZERO_32BYTES = '[a-f0-9]{64}'` class. -/
def hexLower (c : Char) : Bool :=
  (decide ('a' ≤ c) && decide (c ≤ 'f')) || (decide ('0' ≤ c) && decide (c ≤ '9'))

/-- Consume the segments of a tuple's slots from the front of `cs`:
a wildcard slot consumes exactly 64 lowercase-hex characters, an exact
slot consumes its literal value with the first two characters dropped.
Returns the unconsumed rest on success.  Every slot has a fixed width, so
this deterministic scan agrees with the regex engine. -/
def matchSlots : DataTuple → List Char → Option (List Char)
  | [], cs => some cs
  | none :: rest, cs =>
      let seg := cs.take 64
      if seg.length == 64 && seg.all hexLower then matchSlots rest (cs.drop 64)
      else none
  | some v :: rest, cs =>
      let lit := v.drop 2
      if lit.isPrefixOf cs then matchSlots rest (cs.drop lit.length)
      else none

/-- Match one alternative `0x` + slots of the compiled pattern at the start
of the payload, returning the unconsumed rest. -/
def tupleMatchFrom (t : DataTuple) (p : List Char) : Option (List Char) :=
  match p with
  | '0' :: 'x' :: rest => matchSlots t rest
  | _ => none

/-- The alternative matches some prefix of the payload (the semantics of a
non-final alternative under `re.match`). -/
def tuplePrefixMatch (t : DataTuple) (p : List Char) : Bool :=
  (tupleMatchFrom t p).isSome

/-- The alternative matches the whole payload (the semantics of the final,
`$`-anchored alternative, and of a single-alternative pattern). -/
def tupleFullMatch (t : DataTuple) (p : List Char) : Bool :=
  tupleMatchFrom t p == some []

/-- `bool(construct_data_filter_regex(dfs).match(p))`: every alternative
but the last is a prefix match, the last is a full match.  With an empty
set the pattern is the bare `'^$'`, matching only the empty payload. -/
def dataFilterRegexMatch : List DataTuple → List Char → Bool
  | [], p => p.isEmpty
  | [t], p => tupleFullMatch t p
  | t :: rest, p => tuplePrefixMatch t p || dataFilterRegexMatch rest p

/-- The matcher the specification describes: some tuple of the set matches
the *entire* payload, anchored at both ends, with alternation across
tuples. -/
def dataFilterSpecMatch (dfs : List DataTuple) (p : List Char) : Bool :=
  dfs.any (fun t => tupleFullMatch t p)

/-- `LogFilter.set_data_filters`: the regex is compiled only when
`any(data_filter_set)` holds, i.e. when some tuple is a non-empty list;
otherwise the matcher stays absent (`None`). -/
def set_data_filters (dfs : List DataTuple) : Option (List DataTuple) :=
  if dfs.any (fun t => !t.isEmpty) then some dfs else none

/-- `LogFilter.is_valid_entry` applied to the entry's `data` field: accept
unconditionally when the matcher is absent, otherwise run the compiled
regex. -/
def is_valid_entry (m : Option (List DataTuple)) (data : List Char) : Bool :=
  match m with
  | none => true
  | some dfs => dataFilterRegexMatch dfs data

/-- An exact-value tuple whose single slot is 32 bytes of `aa`. -/
def tupleA : DataTuple := [some ('0' :: 'x' :: List.replicate 64 'a')]

/-- An exact-value tuple whose single slot is 32 bytes of `bb`. -/
def tupleB : DataTuple := [some ('0' :: 'x' :: List.replicate 64 'b')]

/-- A 64-byte payload whose first 32 bytes are `aa` and whose last
32 bytes are `cc`: no tuple of `[tupleA, tupleB]` matches it in full. -/
def payloadAC : List Char :=
  '0' :: 'x' :: (List.replicate 64 'a' ++ List.replicate 64 'c')

/-! ## Errors

The source raises `ValueError` with distinct messages; the taxonomy below
follows the two families that the claims name. -/

/-- Error taxonomy: `invalidState` stands for the `ValueError`s raised by
restarting, watching or synchronously reading in the wrong lifecycle
state; `unsupportedAddressType` for the `ValueError` of the address
merge. -/
inductive FErr where
  | invalidState
  | unsupportedAddressType
deriving DecidableEq, Repr

/-! ## `construct_event_filter_params`

Python values reaching the address and topic parameters are embedded as
`Val`: `None`, strings, list-like sequences and other (integer) values.
The encoder collaborators `construct_event_topic_set` and
`construct_event_data_set` live in another module and are parameters
here, exactly as in the claims. -/

/-- A Python value as far as the builder inspects it. -/
inductive Val where
  | vnone
  | vstr (s : List Char)
  | vlist (l : List Val)
  | vint (n : Int)
deriving Repr

/-- Python truthiness of a `Val`: `None`, the empty string, the empty
list and zero are falsy. -/
def truthy : Val → Bool
  | Val.vnone => false
  | Val.vstr s => !s.isEmpty
  | Val.vlist l => !l.isEmpty
  | Val.vint n => n != 0

/-- `eth_utils.is_list_like`. -/
def is_list_like : Val → Bool
  | Val.vlist _ => true
  | _ => false

/-- `eth_utils.is_string`. -/
def is_string : Val → Bool
  | Val.vstr _ => true
  | _ => false

/-- A parameter is *given* when it is not the default `None`. -/
def given : Val → Bool
  | Val.vnone => false
  | _ => true

/-- The element list of a list-like value (only consulted under
`is_list_like`). -/
def listOf : Val → List Val
  | Val.vlist l => l
  | _ => []

/-- The address merge of `construct_event_filter_params` (the
`if address and contract_address: ...` chain).  `none` means the
`address` key is left out of the filter params. -/
def addressParam (address contract_address : Val) : Except FErr (Option Val) :=
  if truthy address && truthy contract_address then
    if is_list_like address then
      Except.ok (some (Val.vlist (listOf address ++ [contract_address])))
    else if is_string address then
      Except.ok (some (Val.vlist [address, contract_address]))
    else
      Except.error FErr.unsupportedAddressType
  else if truthy address then
    Except.ok (some address)
  else if truthy contract_address then
    Except.ok (some contract_address)
  else
    Except.ok none

/-- The address merge as the claim words it, with *given* (= passed, i.e.
not `None`) deciding each branch instead of Python truthiness. -/
def addressParamSpecGiven (address contract_address : Val) : Except FErr (Option Val) :=
  match given address, given contract_address with
  | true, true =>
      match address with
      | Val.vlist l => Except.ok (some (Val.vlist (l ++ [contract_address])))
      | Val.vstr s => Except.ok (some (Val.vlist [Val.vstr s, contract_address]))
      | _ => Except.error FErr.unsupportedAddressType
  | true, false => Except.ok (some address)
  | false, true => Except.ok (some contract_address)
  | false, false => Except.ok none

/-- The address merge as amended: the branches are decided by Python
truthiness (non-`None` *and* non-empty / non-zero). -/
def addressParamSpecTruthy (address contract_address : Val) : Except FErr (Option Val) :=
  match truthy address, truthy contract_address with
  | true, true =>
      match address with
      | Val.vlist l => Except.ok (some (Val.vlist (l ++ [contract_address])))
      | Val.vstr s => Except.ok (some (Val.vlist [Val.vstr s, contract_address]))
      | _ => Except.error FErr.unsupportedAddressType
  | true, false => Except.ok (some address)
  | false, true => Except.ok (some contract_address)
  | false, false => Except.ok none

/-- The singleton-collapse of the combined topic sequence
(`if len(topic_set) == 1 and is_list_like(topic_set[0])`). -/
def collapseTopicSet (topic_set : List Val) : Val :=
  match topic_set with
  | [t] => if is_list_like t then t else Val.vlist [t]
  | _ => Val.vlist topic_set

/-- The `topics` value of the filter params: prepend an explicit `topics`
argument to the encoded topic set when one was passed, then collapse. -/
def topicsParam (topics : Option Val) (encodedTopicSet : List Val) : Val :=
  collapseTopicSet (match topics with
    | none => encodedTopicSet
    | some t => t :: encodedTopicSet)

/-- The collapse rule as the spec words it: exactly one element that is
itself a sequence is unwrapped, anything else is stored as-is. -/
def topicsCollapseSpec (comb : List Val) : Val :=
  match comb with
  | [Val.vlist inner] => Val.vlist inner
  | other => Val.vlist other

/-- The `topics` value as the claim words it: combined sequence
`[explicitTopics, ...encodedTopics]` when an explicit value is given,
the encoded set alone otherwise, then the collapse rule. -/
def topicsParamSpec (explicitTopics : Option Val) (encodedTopicSet : List Val) : Val :=
  topicsCollapseSpec (match explicitTopics with
    | some t => [t] ++ encodedTopicSet
    | none => encodedTopicSet)

/-- The filter params mapping: each `Option` field is `none` when the key
is absent from the dict. -/
structure FilterParams where
  topics : Val
  address : Option Val
  fromBlock : Option Val
  toBlock : Option Val
deriving Repr

/-- `construct_event_filter_params`, with the encoder outputs
(`construct_event_topic_set`, `construct_event_data_set`) passed in as
`encodedTopicSet` and `dataFilterSet`.  `fromBlock` / `toBlock` enter the
params only when not `None`, which the `Option` fields model directly. -/
def construct_event_filter_params (encodedTopicSet : List Val)
    (dataFilterSet : List DataTuple) (contract_address : Val)
    (topics : Option Val) (fromBlock toBlock : Option Val) (address : Val) :
    Except FErr (List DataTuple × FilterParams) :=
  match addressParam address contract_address with
  | Except.error e => Except.error e
  | Except.ok addr =>
      Except.ok (dataFilterSet,
        { topics := topicsParam topics encodedTopicSet
          address := addr
          fromBlock := fromBlock
          toBlock := toBlock })

/-! ## The filter engine (`Filter`, `LogFilter`, `PastLogFilter`, `ShhFilter`)

Entries of the remote stream are opaque naturals, callbacks are
identified by naturals, and the per-variant hooks (`is_valid_entry`,
`format_entry`) are two injected functions.  Every observable side effect
of an operation — the remote fetches, the validity checks, the formatter
calls, the callback invocations and the sleeps of the poll loop — is
recorded in an event trace. -/

/-- The engine state: the `running` / `stopped` flags (`running` starts
as `None`, embedded as `false`), the callback registry and the poll
interval. -/
structure FState where
  running : Bool
  stopped : Bool
  callbacks : List Nat
  pollInterval : Option Nat
deriving DecidableEq, Repr

/-- The lifecycle state the spec talks about, derived from the flags. -/
inductive FilterState where
  | Idle
  | Running
  | Stopped
deriving DecidableEq, Repr

/-- A stopped filter is `Stopped` whatever its other flags; otherwise the
`running` flag separates `Running` from `Idle`. -/
def stateOf (s : FState) : FilterState :=
  if s.stopped then FilterState.Stopped
  else if s.running then FilterState.Running
  else FilterState.Idle

/-- Position of a lifecycle state along `Idle → Running → Stopped`. -/
def rank : FilterState → Nat
  | FilterState.Idle => 0
  | FilterState.Running => 1
  | FilterState.Stopped => 2

/-- The two overridable hooks of the engine. -/
structure Hooks where
  isValid : Nat → Bool
  format : Nat → Nat

/-- One observable side effect of the engine. -/
inductive Ev where
  | fetchChanges
  | fetchLogs
  | validCheck (e : Nat)
  | formatCall (e : Nat)
  | invoke (c : Nat) (e : Nat)
  | sleepRand
  | sleepFor (d : Nat)
deriving DecidableEq, Repr

/-- What the remote source would answer to the two fetch calls. -/
structure Remote where
  changes : List Nat
  logs : List Nat
deriving Repr

/-- The inner dispatch loop, for one entry:
`for callback_fn in self.callbacks: if self.is_valid_entry(entry):
callback_fn(self.format_entry(entry))`.  The validity hook runs once per
callback, and the formatter runs (and the callback is invoked) only when
the check succeeds. -/
def dispatchEntry (h : Hooks) (cbs : List Nat) (e : Nat) : List Ev :=
  match cbs with
  | [] => []
  | c :: rest =>
      Ev.validCheck e ::
        ((if h.isValid e then [Ev.formatCall e, Ev.invoke c (h.format e)] else []) ++
          dispatchEntry h rest e)

/-- The outer dispatch loop, over the fetched batch in source order (the
`if changes:` guard of the source is a no-op on the trace). -/
def dispatch (h : Hooks) (cbs : List Nat) (entries : List Nat) : List Ev :=
  match entries with
  | [] => []
  | e :: rest => dispatchEntry h cbs e ++ dispatch h cbs rest

/-- The callback invocations of a trace, in order. -/
def invocations (tr : List Ev) : List (Nat × Nat) :=
  tr.filterMap (fun ev =>
    match ev with
    | Ev.invoke c e => some (c, e)
    | _ => none)

/-- Recognise a validity-hook event. -/
def isValidCheckEv : Ev → Bool
  | Ev.validCheck _ => true
  | _ => false

/-- Recognise a formatter event. -/
def isFormatCallEv : Ev → Bool
  | Ev.formatCall _ => true
  | _ => false

/-- Recognise a changes-only fetch. -/
def isFetchChangesEv : Ev → Bool
  | Ev.fetchChanges => true
  | _ => false

/-- Recognise a full-log fetch. -/
def isFetchLogsEv : Ev → Bool
  | Ev.fetchLogs => true
  | _ => false

/-- Recognise a sleep of either kind. -/
def isSleepEv : Ev → Bool
  | Ev.sleepRand => true
  | Ev.sleepFor _ => true
  | _ => false

/-- `Filter.watch`: refuse on a stopped filter, extend the registry, and
start the background task only when not already running (`if not
self.running: self.start()`).  The returned flag records whether a task
was started; the spawned task's own first step is `runStart`. -/
def watchFn (s : FState) (cs : List Nat) : Except FErr (FState × Bool) :=
  if s.stopped then Except.error FErr.invalidState
  else Except.ok ({ s with callbacks := s.callbacks ++ cs }, !s.running)

/-- The prologue shared by every `_run`: `if self.stopped: raise ...;
self.running = True`. -/
def runStart (s : FState) : Except FErr FState :=
  if s.stopped then Except.error FErr.invalidState
  else Except.ok { s with running := true }

/-- The sleep performed at the bottom of each live loop iteration:
`sleep(random.random())` without a poll interval, `sleep(self.poll_interval)`
with one. -/
def sleepEv (s : FState) : Ev :=
  match s.pollInterval with
  | none => Ev.sleepRand
  | some d => Ev.sleepFor d

/-- One iteration of the live poll loop of `Filter._run` (and, with the
other remote namespace, of `ShhFilter._run`): fetch the changes, dispatch
them, sleep.  The iteration leaves the state untouched. -/
def liveStepFn (h : Hooks) (s : FState) (changes : List Nat) : FState × List Ev :=
  (s, Ev.fetchChanges :: (dispatch h s.callbacks changes ++ [sleepEv s]))

/-- `PastLogFilter._run` as a whole: the shared prologue, exactly one
full-log fetch, one dispatch pass, then `self.running = False`. -/
def pastRun (h : Hooks) (s : FState) (logs : List Nat) : Except FErr (FState × List Ev) :=
  match runStart s with
  | Except.error e => Except.error e
  | Except.ok s1 =>
      Except.ok ({ s1 with running := false },
        Ev.fetchLogs :: dispatch h s1.callbacks logs)

/-- `Filter.stop_watching` (and `ShhFilter.stop_watching`): clear
`running`, set `stopped`; the uninstall call and the bounded join have no
effect on the engine state. -/
def stop_watching (s : FState) : FState :=
  { s with running := false, stopped := true }

/-- `Filter.get_new_entries` with `LogFilter._ensure_not_running` and
`LogFilter._format_log_entries` (the only classes defining them): refuse
while running, otherwise one changes-only fetch, keep the entries passing
the validity hook, format the survivors in order.  No state change. -/
def get_new_entries (h : Hooks) (s : FState) (r : Remote) :
    Except FErr (FState × Ev × List Nat) :=
  if s.running then Except.error FErr.invalidState
  else Except.ok (s, Ev.fetchChanges, (r.changes.filter h.isValid).map h.format)

/-- `Filter.get_all_entries`: as `get_new_entries` but with the full-log
fetch. -/
def get_all_entries (h : Hooks) (s : FState) (r : Remote) :
    Except FErr (FState × Ev × List Nat) :=
  if s.running then Except.error FErr.invalidState
  else Except.ok (s, Ev.fetchLogs, (r.logs.filter h.isValid).map h.format)

/-- Which operation (or loop step) a lifecycle transition comes from. -/
inductive Label where
  | watchL
  | runStartL
  | liveL
  | pastFinishL
  | stopL
  | getNewL
  | getAllL
deriving DecidableEq, Repr

/-- Every state transition any engine variant can make: the public
operations, the prologue of a spawned `_run`, one live loop iteration,
and the trailing `self.running = False` of `PastLogFilter._run`. -/
inductive Step : Label → FState → FState → Prop where
  | watch (s : FState) (cs : List Nat) (s1 : FState) (b : Bool) :
      watchFn s cs = Except.ok (s1, b) → Step Label.watchL s s1
  | runStart0 (s s1 : FState) :
      runStart s = Except.ok s1 → Step Label.runStartL s s1
  | live (h : Hooks) (s : FState) (changes : List Nat) :
      s.running = true → Step Label.liveL s (liveStepFn h s changes).1
  | pastFinish (s : FState) :
      Step Label.pastFinishL s { s with running := false }
  | stop (s : FState) :
      Step Label.stopL s (stop_watching s)
  | getNew (h : Hooks) (s : FState) (r : Remote) (out : FState × Ev × List Nat) :
      get_new_entries h s r = Except.ok out → Step Label.getNewL s out.1
  | getAll (h : Hooks) (s : FState) (r : Remote) (out : FState × Ev × List Nat) :
      get_all_entries h s r = Except.ok out → Step Label.getAllL s out.1

/-- Concrete hooks for witnesses: keep even entries, add 10. -/
def demoHooks : Hooks := ⟨fun e => decide (e % 2 = 0), fun e => e + 10⟩

/-- Concrete remote answers for witnesses. -/
def demoRemote : Remote := ⟨[1, 2], [3, 4]⟩

/-! ## Helper lemmas on traces -/

theorem invocations_append (a b : List Ev) :
    invocations (a ++ b) = invocations a ++ invocations b := by
  simp [invocations]

theorem invocations_cons_fetchChanges (tr : List Ev) :
    invocations (Ev.fetchChanges :: tr) = invocations tr := by
  simp [invocations, List.filterMap_cons]

theorem invocations_cons_fetchLogs (tr : List Ev) :
    invocations (Ev.fetchLogs :: tr) = invocations tr := by
  simp [invocations, List.filterMap_cons]

theorem invocations_sleepEv (s : FState) : invocations [sleepEv s] = [] := by
  rcases s with ⟨run, stp, cbs, pi⟩
  cases pi <;> simp [invocations, sleepEv]

theorem isValidCheckEv_sleepEv (s : FState) : isValidCheckEv (sleepEv s) = false := by
  rcases s with ⟨run, stp, cbs, pi⟩
  cases pi <;> simp [sleepEv, isValidCheckEv]

theorem isFormatCallEv_sleepEv (s : FState) : isFormatCallEv (sleepEv s) = false := by
  rcases s with ⟨run, stp, cbs, pi⟩
  cases pi <;> simp [sleepEv, isFormatCallEv]

theorem invocations_dispatchEntry (h : Hooks) (cbs : List Nat) (e : Nat) :
    invocations (dispatchEntry h cbs e) =
      if h.isValid e then cbs.map (fun c => (c, h.format e)) else [] := by
  induction cbs with
  | nil => cases hv : h.isValid e <;> simp [dispatchEntry, invocations]
  | cons c rest ih =>
      cases hv : h.isValid e <;>
        simp_all [dispatchEntry, invocations]

theorem invocations_dispatch (h : Hooks) (cbs : List Nat) (entries : List Nat) :
    invocations (dispatch h cbs entries) =
      (entries.filter h.isValid).flatMap (fun e => cbs.map (fun c => (c, h.format e))) := by
  induction entries with
  | nil => rfl
  | cons e rest ih =>
      cases hv : h.isValid e <;>
        simp_all [dispatch, invocations_append, invocations_dispatchEntry, List.filter_cons]

theorem countP_validCheck_dispatchEntry (h : Hooks) (cbs : List Nat) (e : Nat) :
    (dispatchEntry h cbs e).countP isValidCheckEv = cbs.length := by
  induction cbs with
  | nil => rfl
  | cons c rest ih =>
      cases hv : h.isValid e <;>
        simp_all [dispatchEntry, List.countP_cons, List.countP_append, isValidCheckEv]

theorem countP_validCheck_dispatch (h : Hooks) (cbs : List Nat) (entries : List Nat) :
    (dispatch h cbs entries).countP isValidCheckEv = entries.length * cbs.length := by
  induction entries with
  | nil => simp [dispatch]
  | cons e rest ih =>
      simp [dispatch, List.countP_append, countP_validCheck_dispatchEntry, ih,
        Nat.succ_mul, Nat.add_comm]

theorem countP_formatCall_dispatchEntry (h : Hooks) (cbs : List Nat) (e : Nat) :
    (dispatchEntry h cbs e).countP isFormatCallEv =
      if h.isValid e then cbs.length else 0 := by
  induction cbs with
  | nil => cases hv : h.isValid e <;> simp [dispatchEntry]
  | cons c rest ih =>
      cases hv : h.isValid e <;>
        simp_all [dispatchEntry, List.countP_cons, List.countP_append, isFormatCallEv]

theorem countP_formatCall_dispatch (h : Hooks) (cbs : List Nat) (entries : List Nat) :
    (dispatch h cbs entries).countP isFormatCallEv =
      (entries.filter h.isValid).length * cbs.length := by
  induction entries with
  | nil => simp [dispatch]
  | cons e rest ih =>
      cases hv : h.isValid e <;>
        simp_all [dispatch, List.countP_append, countP_formatCall_dispatchEntry,
          List.filter_cons, Nat.succ_mul, Nat.add_comm]

theorem countP_fetchLogs_dispatchEntry (h : Hooks) (cbs : List Nat) (e : Nat) :
    (dispatchEntry h cbs e).countP isFetchLogsEv = 0 := by
  induction cbs with
  | nil => rfl
  | cons c rest ih =>
      cases hv : h.isValid e <;>
        simp_all [dispatchEntry, List.countP_cons, List.countP_append, isFetchLogsEv]

theorem countP_fetchLogs_dispatch (h : Hooks) (cbs : List Nat) (entries : List Nat) :
    (dispatch h cbs entries).countP isFetchLogsEv = 0 := by
  induction entries with
  | nil => rfl
  | cons e rest ih =>
      simp_all [dispatch, List.countP_append, countP_fetchLogs_dispatchEntry]

theorem countP_fetchChanges_dispatchEntry (h : Hooks) (cbs : List Nat) (e : Nat) :
    (dispatchEntry h cbs e).countP isFetchChangesEv = 0 := by
  induction cbs with
  | nil => rfl
  | cons c rest ih =>
      cases hv : h.isValid e <;>
        simp_all [dispatchEntry, List.countP_cons, List.countP_append, isFetchChangesEv]

theorem countP_fetchChanges_dispatch (h : Hooks) (cbs : List Nat) (entries : List Nat) :
    (dispatch h cbs entries).countP isFetchChangesEv = 0 := by
  induction entries with
  | nil => rfl
  | cons e rest ih =>
      simp_all [dispatch, List.countP_append, countP_fetchChanges_dispatchEntry]

theorem countP_sleep_dispatchEntry (h : Hooks) (cbs : List Nat) (e : Nat) :
    (dispatchEntry h cbs e).countP isSleepEv = 0 := by
  induction cbs with
  | nil => rfl
  | cons c rest ih =>
      cases hv : h.isValid e <;>
        simp_all [dispatchEntry, List.countP_cons, List.countP_append, isSleepEv]

theorem countP_sleep_dispatch (h : Hooks) (cbs : List Nat) (entries : List Nat) :
    (dispatch h cbs entries).countP isSleepEv = 0 := by
  induction entries with
  | nil => rfl
  | cons e rest ih =>
      simp_all [dispatch, List.countP_append, countP_sleep_dispatchEntry]

theorem dispatch_nil_callbacks (h : Hooks) (entries : List Nat) :
    dispatch h [] entries = [] := by
  induction entries with
  | nil => rfl
  | cons e rest ih => simp [dispatch, dispatchEntry, ih]

theorem topicsCollapse_eq (l : List Val) : collapseTopicSet l = topicsCollapseSpec l := by
  match l with
  | [] => rfl
  | [Val.vnone] => rfl
  | [Val.vstr _] => rfl
  | [Val.vlist _] => rfl
  | [Val.vint _] => rfl
  | a :: b :: rest => cases a <;> rfl

/-- Reachable engine states never carry `running` and `stopped` at once;
every transition preserves this (it justifies the reachability hypothesis
of the synchronous-read theorem). -/
theorem step_preserves_flags_inv (l : Label) (s s1 : FState)
    (hstep : Step l s s1) (hinv : s.running = false ∨ s.stopped = false) :
    s1.running = false ∨ s1.stopped = false := by
  cases hstep with
  | watch s cs s1 b heq =>
      unfold watchFn at heq
      split at heq
      · cases heq
      · next hstp =>
          simp only [Except.ok.injEq, Prod.mk.injEq] at heq
          obtain ⟨h1, -⟩ := heq
          subst h1
          simp_all
  | runStart0 s s1 heq =>
      unfold runStart at heq
      split at heq
      · cases heq
      · next hstp =>
          simp only [Except.ok.injEq] at heq
          subst heq
          simp_all
  | live h s changes hrun => simpa [liveStepFn] using hinv
  | pastFinish s => simp
  | stop s => simp [stop_watching]
  | getNew h s r out heq =>
      unfold get_new_entries at heq
      split at heq
      · cases heq
      · simp only [Except.ok.injEq] at heq
        subst heq
        simpa using hinv
  | getAll h s r out heq =>
      unfold get_all_entries at heq
      split at heq
      · cases heq
      · simp only [Except.ok.injEq] at heq
        subst heq
        simpa using hinv

theorem isValidCheckEv_fetchChanges : isValidCheckEv Ev.fetchChanges = false := rfl

theorem isFormatCallEv_fetchChanges : isFormatCallEv Ev.fetchChanges = false := rfl

theorem isValidCheckEv_fetchLogs : isValidCheckEv Ev.fetchLogs = false := rfl

theorem isFormatCallEv_fetchLogs : isFormatCallEv Ev.fetchLogs = false := rfl

theorem isFetchLogsEv_fetchLogs : isFetchLogsEv Ev.fetchLogs = true := rfl

theorem isFetchChangesEv_fetchLogs : isFetchChangesEv Ev.fetchLogs = false := rfl

theorem isSleepEv_fetchLogs : isSleepEv Ev.fetchLogs = false := rfl

/-! ## The claims -/

/-- Claim C1: the spec states that the compiled matcher accepts a payload
iff some tuple of the set matches the *entire* payload, anchored at both
ends, with alternation across tuples.  The code disagrees: in the
compiled pattern `^alt1|...|altn$` the anchors bind to the first and last
alternative only, so under `re.match` every non-final tuple is matched as
a mere prefix.  At the two-tuple set `[tupleA, tupleB]` and the payload
`0x` + `aa`*32 + `cc`*32, the code accepts although no tuple matches the
whole payload; the same single tuple alone (where the pattern is fully
anchored) rejects it. -/
theorem C1_data_matcher_anchoring_eval :
    is_valid_entry (set_data_filters [tupleA, tupleB]) payloadAC = true ∧
    dataFilterSpecMatch [tupleA, tupleB] payloadAC = false ∧
    dataFilterRegexMatch [tupleA] payloadAC = false :=
  ⟨by decide, by decide, by decide⟩

/-- Claim C2, counterexample: the completion of `PastLogFilter._run` is a
transition from `Running` back to `Idle`, which is not monotone along
`Idle → Running → Stopped`. -/
theorem C2_counterexample :
    Step Label.pastFinishL ⟨true, false, [], none⟩ ⟨false, false, [], none⟩ ∧
    stateOf ⟨true, false, [], none⟩ = FilterState.Running ∧
    stateOf ⟨false, false, [], none⟩ = FilterState.Idle ∧
    ¬ rank (stateOf ⟨true, false, [], none⟩) ≤ rank (stateOf ⟨false, false, [], none⟩) :=
  ⟨Step.pastFinish _, by decide, by decide, by decide⟩

/-- Claim C2 as amended: no transition leaves `Stopped`, `Running` is
entered only from `Idle` (or stays `Running`), and every operation and
loop step is monotone along `Idle → Running → Stopped`, except the past
variant's run completion, which moves `Running` back to `Idle`. -/
theorem C2_lifecycle_monotone_amended (l : Label) (s s1 : FState)
    (hstep : Step l s s1) :
    (stateOf s = FilterState.Stopped → stateOf s1 = FilterState.Stopped) ∧
    (stateOf s1 = FilterState.Running →
      stateOf s = FilterState.Idle ∨ stateOf s = FilterState.Running) ∧
    (rank (stateOf s) ≤ rank (stateOf s1) ∨
      (l = Label.pastFinishL ∧ stateOf s = FilterState.Running ∧
        stateOf s1 = FilterState.Idle)) := by
  cases hstep with
  | watch s cs s1 b heq =>
      unfold watchFn at heq
      split at heq
      · cases heq
      · next hstp =>
          simp only [Except.ok.injEq, Prod.mk.injEq] at heq
          obtain ⟨h1, -⟩ := heq
          subst h1
          rcases s with ⟨run, stp, cbs, pi⟩
          simp only [Bool.not_eq_true] at hstp
          subst hstp
          cases run <;> simp [stateOf, rank]
  | runStart0 s s1 heq =>
      unfold runStart at heq
      split at heq
      · cases heq
      · next hstp =>
          simp only [Except.ok.injEq] at heq
          subst heq
          rcases s with ⟨run, stp, cbs, pi⟩
          simp only [Bool.not_eq_true] at hstp
          subst hstp
          cases run <;> simp [stateOf, rank]
  | live h s changes hrun =>
      rcases s with ⟨run, stp, cbs, pi⟩
      cases stp <;> simp_all [stateOf, rank, liveStepFn]
  | pastFinish s =>
      rcases s with ⟨run, stp, cbs, pi⟩
      cases run <;> cases stp <;> simp [stateOf, rank]
  | stop s =>
      rcases s with ⟨run, stp, cbs, pi⟩
      cases run <;> cases stp <;> simp [stateOf, rank, stop_watching]
  | getNew h s r out heq =>
      unfold get_new_entries at heq
      split at heq
      · cases heq
      · next hrun =>
          simp only [Except.ok.injEq] at heq
          subst heq
          rcases s with ⟨run, stp, cbs, pi⟩
          simp only [Bool.not_eq_true] at hrun
          subst hrun
          cases stp <;> simp [stateOf, rank]
  | getAll h s r out heq =>
      unfold get_all_entries at heq
      split at heq
      · cases heq
      · next hrun =>
          simp only [Except.ok.injEq] at heq
          subst heq
          rcases s with ⟨run, stp, cbs, pi⟩
          simp only [Bool.not_eq_true] at hrun
          subst hrun
          cases stp <;> simp [stateOf, rank]

/-- Claim C2 amended, witness at the concrete transition `stop` from
`Idle`. -/
theorem C2_lifecycle_monotone_amended_witness :
    Step Label.stopL ⟨false, false, [], none⟩ ⟨false, true, [], none⟩ ∧
    ((stateOf ⟨false, false, [], none⟩ = FilterState.Stopped →
        stateOf ⟨false, true, [], none⟩ = FilterState.Stopped) ∧
      (stateOf ⟨false, true, [], none⟩ = FilterState.Running →
        stateOf ⟨false, false, [], none⟩ = FilterState.Idle ∨
          stateOf ⟨false, false, [], none⟩ = FilterState.Running) ∧
      (rank (stateOf ⟨false, false, [], none⟩) ≤ rank (stateOf ⟨false, true, [], none⟩) ∨
        (Label.stopL = Label.pastFinishL ∧
          stateOf ⟨false, false, [], none⟩ = FilterState.Running ∧
          stateOf ⟨false, true, [], none⟩ = FilterState.Idle))) :=
  ⟨Step.stop _,
    C2_lifecycle_monotone_amended Label.stopL _ _ (Step.stop ⟨false, false, [], none⟩)⟩

/-- Claim C3: the synchronous reads fail with the invalid-state error
exactly while `Running`; otherwise each performs its single one-shot
fetch and returns the validity-filtered entries, formatted, in source
order, with no state transition.  The hypothesis is the reachable-state
invariant proved by `step_preserves_flags_inv`. -/
theorem C3_sync_reads (h : Hooks) (s : FState) (r : Remote)
    (hinv : s.running = false ∨ s.stopped = false) :
    (stateOf s = FilterState.Running →
      get_new_entries h s r = Except.error FErr.invalidState ∧
      get_all_entries h s r = Except.error FErr.invalidState) ∧
    (stateOf s ≠ FilterState.Running →
      get_new_entries h s r =
        Except.ok (s, Ev.fetchChanges, (r.changes.filter h.isValid).map h.format) ∧
      get_all_entries h s r =
        Except.ok (s, Ev.fetchLogs, (r.logs.filter h.isValid).map h.format)) := by
  rcases s with ⟨run, stp, cbs, pi⟩
  cases run <;> cases stp <;> simp_all [stateOf, get_new_entries, get_all_entries]

/-- Claim C3 witness: on an idle filter both reads succeed with the
filtered, formatted entries. -/
theorem C3_sync_reads_witness :
    ((⟨false, false, [], none⟩ : FState).running = false ∨
      (⟨false, false, [], none⟩ : FState).stopped = false) ∧
    get_new_entries demoHooks ⟨false, false, [], none⟩ demoRemote =
      Except.ok (⟨false, false, [], none⟩, Ev.fetchChanges, [12]) ∧
    get_all_entries demoHooks ⟨false, false, [], none⟩ demoRemote =
      Except.ok (⟨false, false, [], none⟩, Ev.fetchLogs, [14]) :=
  ⟨Or.inl rfl,
    ((C3_sync_reads demoHooks _ demoRemote (Or.inl rfl)).2 (by decide)).1,
    ((C3_sync_reads demoHooks _ demoRemote (Or.inl rfl)).2 (by decide)).2⟩

/-- Claim C4, counterexample: with `address = []` (a given, sequence-shaped
value) and a given `contractAddress`, the claim requires the appended
sequence `[contractAddress]`, but the code — which tests Python
truthiness, not presence — falls through to the `elif contract_address`
branch and stores the bare contract address. -/
theorem C4_counterexample :
    given (Val.vlist []) = true ∧
    given (Val.vstr ['0', 'x', 'B']) = true ∧
    is_list_like (Val.vlist []) = true ∧
    addressParam (Val.vlist []) (Val.vstr ['0', 'x', 'B']) =
      Except.ok (some (Val.vstr ['0', 'x', 'B'])) ∧
    addressParamSpecGiven (Val.vlist []) (Val.vstr ['0', 'x', 'B']) =
      Except.ok (some (Val.vlist [Val.vstr ['0', 'x', 'B']])) ∧
    addressParam (Val.vlist []) (Val.vstr ['0', 'x', 'B']) ≠
      addressParamSpecGiven (Val.vlist []) (Val.vstr ['0', 'x', 'B']) := by
  refine ⟨rfl, rfl, rfl, rfl, rfl, ?_⟩
  simp [addressParam, addressParamSpecGiven, truthy, given, is_list_like, is_string, listOf]

/-- Claim C4 as amended: the merge branches are selected by Python
truthiness (non-`None` *and* non-empty / non-zero) instead of "given":
when both are truthy a sequence-shaped address gets the contract address
appended, a string-like address forms the two-element sequence, any other
shape fails; when only one is truthy it is stored alone; when neither is
truthy the key is omitted. -/
theorem C4_address_merge_amended (address contract_address : Val) :
    addressParam address contract_address =
      addressParamSpecTruthy address contract_address := by
  unfold addressParam addressParamSpecTruthy
  cases ha : truthy address <;> cases hc : truthy contract_address <;> simp [ha, hc]
  cases address <;> simp_all [is_list_like, is_string, listOf, truthy]

/-- Claim C5: the combined topic sequence prepends a given explicit
`topics` argument to the encoded set, and a combined sequence consisting
of exactly one sequence-shaped element is unwrapped, anything else stored
as-is. -/
theorem C5_topics_param (topics : Option Val) (encodedTopicSet : List Val) :
    topicsParam topics encodedTopicSet = topicsParamSpec topics encodedTopicSet := by
  cases topics <;> simp [topicsParam, topicsParamSpec, topicsCollapse_eq]

/-- Claim C6: in one live poll iteration the callback invocations are
exactly: the valid entries in source order, each delivering the formatted
entry to every registered callback in registration order before the next
entry is processed. -/
theorem C6_dispatch_order (h : Hooks) (s : FState) (changes : List Nat) :
    invocations (liveStepFn h s changes).2 =
      (changes.filter h.isValid).flatMap
        (fun e => s.callbacks.map (fun c => (c, h.format e))) := by
  have h1 : (liveStepFn h s changes).2 =
      Ev.fetchChanges :: (dispatch h s.callbacks changes ++ [sleepEv s]) := rfl
  rw [h1, invocations_cons_fetchChanges, invocations_append, invocations_sleepEv,
    invocations_dispatch]
  simp

/-- Claim C7: a past-replay run from a non-`Stopped` state succeeds,
performs exactly one full-log fetch and no changes fetch, never sleeps,
dispatches the matching entries to the callbacks, and ends `Idle`. -/
theorem C7_past_run (h : Hooks) (s : FState) (logs : List Nat)
    (hns : stateOf s ≠ FilterState.Stopped) :
    ∃ s1 tr, pastRun h s logs = Except.ok (s1, tr) ∧
      stateOf s1 = FilterState.Idle ∧
      tr.countP isFetchLogsEv = 1 ∧
      tr.countP isFetchChangesEv = 0 ∧
      tr.countP isSleepEv = 0 ∧
      invocations tr =
        (logs.filter h.isValid).flatMap
          (fun e => s.callbacks.map (fun c => (c, h.format e))) := by
  have hstp : s.stopped = false := by
    cases hx : s.stopped
    · rfl
    · exact absurd (by simp [stateOf, hx]) hns
  refine ⟨{ s with running := false }, Ev.fetchLogs :: dispatch h s.callbacks logs,
    ?_, ?_, ?_, ?_, ?_, ?_⟩
  · simp [pastRun, runStart, hstp]
  · simp [stateOf, hstp]
  · simp [List.countP_cons, countP_fetchLogs_dispatch, isFetchLogsEv_fetchLogs]
  · simp [List.countP_cons, countP_fetchChanges_dispatch, isFetchChangesEv_fetchLogs]
  · simp [List.countP_cons, countP_sleep_dispatch, isSleepEv_fetchLogs]
  · rw [invocations_cons_fetchLogs, invocations_dispatch]

/-- Claim C7 witness. -/
theorem C7_past_run_witness :
    stateOf ⟨false, false, [5], none⟩ ≠ FilterState.Stopped ∧
    (∃ s1 tr, pastRun demoHooks ⟨false, false, [5], none⟩ [3, 4] = Except.ok (s1, tr) ∧
      stateOf s1 = FilterState.Idle ∧
      tr.countP isFetchLogsEv = 1 ∧
      tr.countP isFetchChangesEv = 0 ∧
      tr.countP isSleepEv = 0 ∧
      invocations tr =
        ([3, 4].filter demoHooks.isValid).flatMap
          (fun e => [5].map (fun c => (c, demoHooks.format e)))) :=
  ⟨by decide, C7_past_run demoHooks ⟨false, false, [5], none⟩ [3, 4] (by decide)⟩

/-- Claim C8: the matcher stays absent exactly when the set is empty or
every tuple is empty, and an absent matcher accepts every payload. -/
theorem C8_absent_matcher (dfs : List DataTuple) (p : List Char) :
    (set_data_filters dfs = none ↔ (dfs = [] ∨ ∀ t ∈ dfs, t = [])) ∧
    is_valid_entry none p = true := by
  refine ⟨⟨?_, ?_⟩, rfl⟩
  · intro h
    right
    intro t ht
    by_contra hne
    have hany : dfs.any (fun t => !t.isEmpty) = true :=
      List.any_eq_true.mpr ⟨t, ht, by simpa using hne⟩
    simp [set_data_filters, hany] at h
  · intro h
    have hany : dfs.any (fun t => !t.isEmpty) = false := by
      rcases h with h | h
      · subst h; rfl
      · simp only [List.any_eq_false]
        intro t ht
        simp [h t ht]
    simp [set_data_filters, hany]

/-- Claim C9: `watch` fails with the invalid-state error when `Stopped`;
otherwise it appends the callbacks in order and reports a started task
exactly when the engine was not already running, and the started task's
prologue moves the engine to `Running`. -/
theorem C9_watch_guard (s : FState) (cs : List Nat) :
    (stateOf s = FilterState.Stopped → watchFn s cs = Except.error FErr.invalidState) ∧
    (stateOf s ≠ FilterState.Stopped →
      watchFn s cs = Except.ok ({ s with callbacks := s.callbacks ++ cs }, !s.running) ∧
      runStart { s with callbacks := s.callbacks ++ cs } =
        Except.ok { s with callbacks := s.callbacks ++ cs, running := true }) := by
  rcases s with ⟨run, stp, cbs, pi⟩
  cases run <;> cases stp <;> simp [stateOf, watchFn, runStart]

/-- Claim C9 witness: a running filter only extends the registry (no new
task). -/
theorem C9_watch_guard_witness :
    stateOf ⟨true, false, [1], none⟩ ≠ FilterState.Stopped ∧
    watchFn ⟨true, false, [1], none⟩ [2] =
      Except.ok (⟨true, false, [1, 2], none⟩, false) ∧
    runStart ⟨true, false, [1, 2], none⟩ = Except.ok ⟨true, false, [1, 2], none⟩ :=
  ⟨by decide,
    ((C9_watch_guard ⟨true, false, [1], none⟩ [2]).2 (by decide)).1,
    ((C9_watch_guard ⟨true, false, [1], none⟩ [2]).2 (by decide)).2⟩

/-- Claim C10, counterexample: with one invalid entry and one callback
there is one (entry, callback) pair, the validity hook runs once, but the
formatter runs zero times, not once per pair. -/
theorem C10_counterexample :
    (dispatch ⟨fun _ => false, fun e => e⟩ [0] [5]).countP isValidCheckEv = 1 ∧
    (dispatch ⟨fun _ => false, fun e => e⟩ [0] [5]).countP isFormatCallEv = 0 ∧
    ([5] : List Nat).length * ([0] : List Nat).length = 1 ∧ (0 : Nat) ≠ 1 :=
  ⟨by decide, by decide, by decide, by decide⟩

/-- Claim C10 as amended: in both dispatch loops the validity hook is
evaluated exactly once per (entry, callback) pair and the formatter
exactly once per (valid entry, callback) pair; with an empty registry no
entry is checked or formatted. -/
theorem C10_hook_granularity_amended (h : Hooks) (cbs entries : List Nat)
    (s : FState) (logs : List Nat) (hns : s.stopped = false) :
    (dispatch h cbs entries).countP isValidCheckEv = entries.length * cbs.length ∧
    (dispatch h cbs entries).countP isFormatCallEv =
      (entries.filter h.isValid).length * cbs.length ∧
    (cbs = [] → dispatch h cbs entries = []) ∧
    (liveStepFn h s entries).2.countP isValidCheckEv =
      entries.length * s.callbacks.length ∧
    (liveStepFn h s entries).2.countP isFormatCallEv =
      (entries.filter h.isValid).length * s.callbacks.length ∧
    (∃ s1 tr, pastRun h s logs = Except.ok (s1, tr) ∧
      tr.countP isValidCheckEv = logs.length * s.callbacks.length ∧
      tr.countP isFormatCallEv = (logs.filter h.isValid).length * s.callbacks.length) := by
  have hl : (liveStepFn h s entries).2 =
      Ev.fetchChanges :: (dispatch h s.callbacks entries ++ [sleepEv s]) := rfl
  refine ⟨countP_validCheck_dispatch h cbs entries,
    countP_formatCall_dispatch h cbs entries,
    fun hc => by subst hc; exact dispatch_nil_callbacks h entries, ?_, ?_, ?_⟩
  · rw [hl]
    simp [List.countP_cons, List.countP_append, countP_validCheck_dispatch,
      isValidCheckEv_sleepEv, isValidCheckEv_fetchChanges]
  · rw [hl]
    simp [List.countP_cons, List.countP_append, countP_formatCall_dispatch,
      isFormatCallEv_sleepEv, isFormatCallEv_fetchChanges]
  · refine ⟨{ s with running := false }, Ev.fetchLogs :: dispatch h s.callbacks logs,
      ?_, ?_, ?_⟩
    · simp [pastRun, runStart, hns]
    · simp [List.countP_cons, countP_validCheck_dispatch, isValidCheckEv_fetchLogs]
    · simp [List.countP_cons, countP_formatCall_dispatch, isFormatCallEv_fetchLogs]

/-- Claim C10 amended, witness. -/
theorem C10_hook_granularity_amended_witness :
    (⟨false, false, [9], some 5⟩ : FState).stopped = false ∧
    ((dispatch demoHooks [0, 1] [2, 3]).countP isValidCheckEv =
        ([2, 3] : List Nat).length * ([0, 1] : List Nat).length ∧
      (dispatch demoHooks [0, 1] [2, 3]).countP isFormatCallEv =
        ([2, 3].filter demoHooks.isValid).length * ([0, 1] : List Nat).length ∧
      (([0, 1] : List Nat) = [] → dispatch demoHooks [0, 1] [2, 3] = []) ∧
      (liveStepFn demoHooks ⟨false, false, [9], some 5⟩ [2, 3]).2.countP isValidCheckEv =
        ([2, 3] : List Nat).length * ([9] : List Nat).length ∧
      (liveStepFn demoHooks ⟨false, false, [9], some 5⟩ [2, 3]).2.countP isFormatCallEv =
        ([2, 3].filter demoHooks.isValid).length * ([9] : List Nat).length ∧
      (∃ s1 tr, pastRun demoHooks ⟨false, false, [9], some 5⟩ [6] = Except.ok (s1, tr) ∧
        tr.countP isValidCheckEv = ([6] : List Nat).length * ([9] : List Nat).length ∧
        tr.countP isFormatCallEv =
          ([6].filter demoHooks.isValid).length * ([9] : List Nat).length)) :=
  ⟨rfl, C10_hook_granularity_amended demoHooks [0, 1] [2, 3]
    ⟨false, false, [9], some 5⟩ [6] rfl⟩

end Web3Filters
